import Mathlib

/-!
Shallow embedding of the data-analysis pipeline in `src/data_analyzer.py`
(class `DataAnalyzer`): loading (`load_data`), cleaning (`clean_data` =
row filter + per-column normalization), correlation (`generate_visualizations`
via `DataFrame.corr`), the feature/target split and model assembly
(`build_ml_model`), and the external fetcher (`fetch_external_data`).

Machine floats are modelled exactly: cell payloads are rationals, the
statistics (which involve square roots) live in `ℝ`, and the IEEE invalid
value NaN is the explicit marker `Option.none`.
-/

namespace DataAnalyzer

/-- A table cell: a numeric value (exact model of the float payload), the
missing/invalid marker (pandas NaN), or text. -/
inductive Cell where
  | num (q : ℚ)
  | nan
  | text (s : String)
deriving DecidableEq

/-- Whether a cell is the missing marker (pandas `isna` on one cell). -/
def Cell.isna : Cell → Bool
  | Cell.nan => true
  | _ => false

/-- In-memory table (the pandas `DataFrame` held in `self.processed_data`):
ordered column names plus ordered rows of cells. -/
structure Table where
  colNames : List String
  rows : List (List Cell)
deriving DecidableEq

/-- Number of columns, `len(df.columns)`. -/
def Table.ncols (t : Table) : Nat := t.colNames.length

/-- Whether a row contains a missing value in some column. -/
def rowHasMissing (r : List Cell) : Bool := r.any Cell.isna

/-- `DataFrame.dropna()` with default arguments (line 41 of
`data_analyzer.py`): drop every row containing a missing value, keeping the
remaining rows in their original order. -/
def dropna (rows : List (List Cell)) : List (List Cell) :=
  rows.filter (fun r => !rowHasMissing r)

/-- One text field of a delimited-text file, as `pd.read_csv` reads it:
empty fields become the missing marker, numeric literals become numbers
(integral literals in this model; the claims do not depend on decimal
syntax), anything else stays text. -/
def parseCell (s : String) : Cell :=
  if s = "" then Cell.nan
  else
    match s.toInt? with
    | some n => Cell.num n
    | none => Cell.text s

/-- `pd.read_csv` (line 31): first line is the header naming the columns,
each further non-empty line is one row, fields separated by commas. -/
def read_csv (content : String) : Table :=
  match content.splitOn "\n" with
  | [] => ⟨[], []⟩
  | header :: rest =>
      ⟨header.splitOn ",",
       (rest.filter (fun line => !(line = ""))).map
         (fun line => (line.splitOn ",").map parseCell)⟩

/-- Column inference of `pd.DataFrame(list_of_records)` (line 35): the
columns are the union of the record keys, in order of first appearance. -/
def dfColumns (recs : List (List (String × Cell))) : List String :=
  recs.foldl (fun acc r => acc ++ ((r.map Prod.fst).filter (fun k => !(acc.contains k)))) []

/-- `pd.DataFrame(list_of_records)` (lines 33-35): one row per record; a
record lacking a column's key gets the missing marker there. -/
def dataFrameOfRecords (recs : List (List (String × Cell))) : Table :=
  let cols := dfColumns recs
  ⟨cols,
   recs.map (fun r =>
     cols.map (fun k =>
       match r.lookup k with
       | some v => v
       | none => Cell.nan))⟩

/-- The `str.endswith` test of Python, on the character sequences of the
two strings. -/
def endswith (s tail : String) : Bool := tail.data.isSuffixOf s.data

/-- `DataAnalyzer.load_data` (lines 28-35): dispatch on the filename
suffix. A `.csv` suffix parses the delimited text, a `.json` suffix parses
the list of records, any other suffix leaves `self.processed_data`
unchanged (absent on a fresh analyzer, whose `__init__` sets it to None). -/
def load_data (prev : Option Table) (src : String) (csvContent : String)
    (jsonContent : List (List (String × Cell))) : Option Table :=
  if endswith src ".csv" then some (read_csv csvContent)
  else if endswith src ".json" then some (dataFrameOfRecords jsonContent)
  else prev

/-- `Series.mean()`: sum divided by length. (In the pipeline this is only
applied to non-empty columns; pandas would return NaN on an empty one.) -/
noncomputable def mean (xs : List ℝ) : ℝ := xs.sum / (xs.length : ℝ)

/-- The sample variance underlying `Series.std()`: squared deviations from
the mean, divided by `n - 1` (the pandas default `ddof = 1`). -/
noncomputable def sampleVar (xs : List ℝ) : ℝ :=
  ((xs.map (fun x => (x - mean xs) ^ 2)).sum) / ((xs.length : ℝ) - 1)

/-- `Series.std()` with `ddof = 1`: square root of the sample variance. -/
noncomputable def std (xs : List ℝ) : ℝ := Real.sqrt (sampleVar xs)

/-- `Series.std()` including its NaN case: with `ddof = 1` the standard
deviation of a column with at most one value is NaN. -/
noncomputable def stdOrNan (xs : List ℝ) : Option ℝ :=
  if xs.length ≤ 1 then none else some (std xs)

/-- IEEE division of a deviation by the (possibly NaN) standard deviation,
with `none` as the invalid marker: dividing by NaN gives NaN, and dividing
by a zero standard deviation gives NaN as well (a zero standard deviation
forces the numerator `x - mean` to be zero, and 0/0 is NaN). -/
noncomputable def nanDiv (a : ℝ) : Option ℝ → Option ℝ
  | none => none
  | some b => if b = 0 then none else some (a / b)

/-- The normalization step of `clean_data` (lines 44-47) on one numeric
column: replace each value `x` by `(x - mean) / std`. -/
noncomputable def normalizeCol (xs : List ℝ) : List (Option ℝ) :=
  xs.map (fun x => nanDiv (x - mean xs) (stdOrNan xs))

/-- Sample covariance of two columns (`ddof = 1`), as used by
`DataFrame.corr`. -/
noncomputable def cov (xs ys : List ℝ) : ℝ :=
  (List.zipWith (fun a b => (a - mean xs) * (b - mean ys)) xs ys).sum
    / ((xs.length : ℝ) - 1)

/-- Pairwise Pearson correlation coefficient of two numeric columns, as
computed by `DataFrame.corr()` (line 53): covariance divided by the product
of the standard deviations. -/
noncomputable def pearson (xs ys : List ℝ) : ℝ := cov xs ys / (std xs * std ys)

/-- The correlation matrix of `generate_visualizations` (line 53): one row
and one column per numeric column of the table. -/
noncomputable def corrMatrix (cols : List (List ℝ)) : List (List ℝ) :=
  cols.map (fun x => cols.map (fun y => pearson x y))

/-- A 64-bit linear congruential step: the concrete deterministic generator
standing in for numpy's seeded `RandomState` stream used by
`train_test_split(..., random_state=42)`. Any fixed generator realizes the
documented contract: the shuffle is a pure function of seed and size. -/
def lcg (s : Nat) : Nat := (6364136223846793005 * s + 1442695040888963407) % 18446744073709551616

/-- Inside-out shuffle driven by `lcg`: each element is inserted at a
generator-chosen position among its successors. Models the seeded shuffle
inside `sklearn.model_selection.train_test_split`. -/
def shuffleAux : List Nat → Nat → List Nat
  | [], _ => []
  | x :: xs, s => List.insertIdx (s % (xs.length + 1)) x (shuffleAux xs (lcg s))

/-- The seeded permutation of row indices `0, ..., n-1` used by the split. -/
def permutation (seed n : Nat) : List Nat := shuffleAux (List.range n) (lcg seed)

/-- Evaluation-subset size used by `train_test_split` for
`test_size=0.2`: the ceiling of `0.2 * n`. -/
def testCount (n : Nat) : Nat := Nat.ceil ((0.2 : ℚ) * (n : ℚ))

/-- Row indices of the evaluation subset: the first `testCount n` entries
of the seeded permutation. -/
def testIndices (seed n : Nat) : List Nat := (permutation seed n).take (testCount n)

/-- Row indices of the training subset: the remaining entries of the
seeded permutation. -/
def trainIndices (seed n : Nat) : List Nat := (permutation seed n).drop (testCount n)

/-- Select table rows by index list, keeping the index list's order. -/
def selectRows {α : Type} (rows : List α) (idx : List Nat) : List α :=
  idx.filterMap (fun i => rows.get? i)

/-- Row-level view of `train_test_split(X, y, test_size=0.2,
random_state=seed)` (lines 67-69), including its error path: sklearn
validates the requested sizes and raises `ValueError` when the training
set would be empty, that is when `n_train = n - ceil(0.2 * n) = 0` (tables
with fewer than two rows). Otherwise it returns the training rows and the
evaluation rows, both selected from the same seeded permutation of row
indices (the feature matrix and the target column are split by the same
permutation, so row correspondence is preserved). -/
def train_test_split {α : Type} (rows : List α) (seed : Nat) :
    Except String (List α × List α) :=
  if rows.length - testCount rows.length = 0 then
    Except.error "ValueError: the resulting train set will be empty"
  else
    Except.ok (selectRows rows (trainIndices seed rows.length),
      selectRows rows (testIndices seed rows.length))

/-- One layer of the assembled network: unit count and activation kind. -/
structure LayerSpec where
  units : Nat
  activation : String
deriving DecidableEq

/-- The model configuration assembled by `build_ml_model` (lines 72-78):
input width, layer stack, optimizer, loss and tracked metrics. -/
structure ModelSpec where
  inputWidth : Nat
  layers : List LayerSpec
  optimizer : String
  loss : String
  metrics : List String
deriving DecidableEq

/-- `DataAnalyzer.build_ml_model` (lines 59-79): if no table exists or it
has at most one column, the guard fails and the method returns `None`
normally (`Except.ok none`). Otherwise the features are all columns but
the last and the rows are split with `random_state=42`; if that split
raises (tables with fewer than two rows), the exception escapes the method
(`Except.error`). Otherwise the returned model is the fixed 64-relu /
32-relu / 1-sigmoid stack, with input width `X_train.shape[1]` (the
feature count), compiled with adam, binary cross-entropy and accuracy. -/
def build_ml_model (pd : Option Table) : Except String (Option ModelSpec) :=
  match pd with
  | none => Except.ok none
  | some t =>
      if 1 < t.ncols then
        match train_test_split t.rows 42 with
        | Except.error e => Except.error e
        | Except.ok _ =>
            Except.ok (some
              { inputWidth := t.ncols - 1
              , layers := [⟨64, "relu"⟩, ⟨32, "relu"⟩, ⟨1, "sigmoid"⟩]
              , optimizer := "adam"
              , loss := "binary_crossentropy"
              , metrics := ["accuracy"] })
      else Except.ok none

/-- The train/test split performed inside `build_ml_model` (lines 63-69),
exposed as the split of the table's rows: it happens only under the same
guard as the model construction, with `random_state=42`, and it propagates
the `ValueError` of the underlying split. -/
def mlSplit (pd : Option Table) :
    Except String (Option (List (List Cell) × List (List Cell))) :=
  match pd with
  | none => Except.ok none
  | some t =>
      if 1 < t.ncols then
        match train_test_split t.rows 42 with
        | Except.error e => Except.error e
        | Except.ok s => Except.ok (some s)
      else Except.ok none

/-- Outcome of `requests.get(api_url, timeout=30)`: either an HTTP response
with a status code and an already-decoded JSON body, or a raised
`requests.RequestException` (connection error, timeout, ...). -/
inductive HttpResult (α : Type) where
  | response (status : Nat) (body : α)
  | exn (msg : String)

/-- `DataAnalyzer.fetch_external_data` (lines 81-89): returns the decoded
payload only for a response with status code exactly 200; a raised network
exception is caught and reported (the printed messages are returned as the
second component); every other case returns `None` with no report. -/
def fetch_external_data {α : Type} (r : HttpResult α) : Option α × List String :=
  match r with
  | HttpResult.response st b => if st = 200 then (some b, []) else (none, [])
  | HttpResult.exn m => (none, ["Error fetching data: " ++ m])

/-- C2: the claim as stated is false: a response whose status code is 201
is an HTTP success (2xx), carries a decodable payload, and yet
`fetch_external_data` returns no payload, because the code tests
`status_code == 200` only. -/
theorem C2_counterexample :
    (200 ≤ 201 ∧ 201 ≤ 299)
    ∧ (fetch_external_data (HttpResult.response 201 "record")).1 = none := by
  exact ⟨by omega, rfl⟩

/-- C2 (amended): `fetch_external_data` returns the decoded payload exactly
when the status code is 200; any other status code (2xx or not) yields no
payload and no report; a network exception is caught (it never escapes) and
is reported, with no payload. -/
theorem C2_fetch_only_200 {α : Type} (st : Nat) (b : α) (m : String) :
    fetch_external_data (HttpResult.response st b) = ((if st = 200 then some b else none), [])
    ∧ ((fetch_external_data (HttpResult.response st b)).1 = some b ↔ st = 200)
    ∧ fetch_external_data (HttpResult.exn (α := α) m) = (none, ["Error fetching data: " ++ m]) := by
  by_cases h : st = 200 <;> simp [fetch_external_data, h]

/-- The evaluation-subset size of a one-row table is the whole table. -/
theorem testCount_1 : testCount 1 = 1 := by
  rw [testCount, Nat.ceil_eq_iff (by norm_num : (1 : ℕ) ≠ 0)]
  norm_num

/-- On at least two rows, the evaluation subset leaves the training set
non-empty. -/
theorem testCount_lt (n : Nat) (h2 : 2 ≤ n) : testCount n < n := by
  have hn : (2 : ℚ) ≤ (n : ℚ) := by exact_mod_cast h2
  have hle : ((0.2 : ℚ) * (n : ℚ)) ≤ ((n : ℚ) - 1) := by linarith
  have hceil : testCount n ≤ n - 1 := by
    rw [testCount]
    refine Nat.ceil_le.mpr ?_
    push_cast [Nat.cast_sub (by omega : 1 ≤ n)]
    exact hle
  omega

/-- With fewer than two rows, the training set would be empty and the
split raises. -/
theorem train_test_split_err {α : Type} (rows : List α) (seed : Nat)
    (h : rows.length ≤ 1) :
    train_test_split rows seed
      = Except.error "ValueError: the resulting train set will be empty" := by
  have hz : rows.length - testCount rows.length = 0 := by
    have hcase : rows.length = 0 ∨ rows.length = 1 := by omega
    cases hcase with
    | inl h0 => rw [h0]; omega
    | inr h1 => rw [h1, testCount_1]
  rw [train_test_split, if_pos hz]

/-- With at least two rows, the split succeeds and returns the selected
training and evaluation rows. -/
theorem train_test_split_ok {α : Type} (rows : List α) (seed : Nat)
    (h2 : 2 ≤ rows.length) :
    train_test_split rows seed
      = Except.ok (selectRows rows (trainIndices seed rows.length),
          selectRows rows (testIndices seed rows.length)) := by
  have hlt := testCount_lt rows.length h2
  have hz : ¬ rows.length - testCount rows.length = 0 := by omega
  rw [train_test_split, if_neg hz]

/-- C3: the claim as stated is false: a two-column table with a single
row satisfies the claim's hypothesis (at least two columns), yet
`build_ml_model` does not produce a model — the embedded
`train_test_split` raises `ValueError` because the training set would be
empty, and the exception escapes the method. -/
theorem C3_counterexample :
    build_ml_model (some ⟨["feature", "target"], [[Cell.num 1, Cell.num 2]]⟩)
      = Except.error "ValueError: the resulting train set will be empty" := by
  have herr := train_test_split_err [[Cell.num 1, Cell.num 2]] 42 (by decide)
  simp [build_ml_model, Table.ncols, herr]

/-- C3 (amended): on a table with at least two columns and at least two
rows (so the embedded split succeeds), `build_ml_model` returns a model
whose input width is the feature count (column count minus one), whose
layer stack is 64 rectified-linear units, then 32 rectified-linear units,
then a single sigmoid output unit, compiled with the adam optimizer,
binary cross-entropy loss, and accuracy as the tracked metric. -/
theorem C3_model_assembler_amended (t : Table) (hc : 2 ≤ t.ncols)
    (hr : 2 ≤ t.rows.length) :
    ∃ m, build_ml_model (some t) = Except.ok (some m)
      ∧ m.inputWidth = t.ncols - 1
      ∧ m.layers = [⟨64, "relu"⟩, ⟨32, "relu"⟩, ⟨1, "sigmoid"⟩]
      ∧ m.optimizer = "adam"
      ∧ m.loss = "binary_crossentropy"
      ∧ m.metrics = ["accuracy"] := by
  have h1 : 1 < t.ncols := by omega
  refine ⟨{ inputWidth := t.ncols - 1
          , layers := [⟨64, "relu"⟩, ⟨32, "relu"⟩, ⟨1, "sigmoid"⟩]
          , optimizer := "adam"
          , loss := "binary_crossentropy"
          , metrics := ["accuracy"] }, ?_, rfl, rfl, rfl, rfl, rfl⟩
  simp [build_ml_model, h1, train_test_split_ok t.rows 42 hr]

/-- Witness for C3 at a concrete two-column, two-row table. -/
theorem C3_witness :
    ∃ m, build_ml_model
        (some ⟨["feature", "target"],
          [[Cell.num 1, Cell.num 2], [Cell.num 3, Cell.num 4]]⟩)
        = Except.ok (some m)
      ∧ m.inputWidth
          = Table.ncols ⟨["feature", "target"],
              [[Cell.num 1, Cell.num 2], [Cell.num 3, Cell.num 4]]⟩ - 1
      ∧ m.layers = [⟨64, "relu"⟩, ⟨32, "relu"⟩, ⟨1, "sigmoid"⟩]
      ∧ m.optimizer = "adam"
      ∧ m.loss = "binary_crossentropy"
      ∧ m.metrics = ["accuracy"] :=
  C3_model_assembler_amended
    ⟨["feature", "target"], [[Cell.num 1, Cell.num 2], [Cell.num 3, Cell.num 4]]⟩
    (by decide) (by decide)

/-- C4: `dropna` keeps a subsequence of the rows (relative order
preserved), its result holds exactly the rows without a missing value, and
on a table with no missing values it is the identity. -/
theorem C4_row_filter (rows : List (List Cell)) :
    (dropna rows).Sublist rows
    ∧ (∀ r, r ∈ dropna rows ↔ r ∈ rows ∧ rowHasMissing r = false)
    ∧ ((∀ r ∈ rows, rowHasMissing r = false) → dropna rows = rows) := by
  refine ⟨List.filter_sublist rows, ?_, ?_⟩
  · intro r
    simp [dropna, List.mem_filter]
  · intro h
    refine List.filter_eq_self.mpr ?_
    intro r hr
    simp [h r hr]

/-- Witness for C4: on a concrete table with no missing value the row
filter is the identity. -/
theorem C4_witness :
    dropna [[Cell.num 1, Cell.num 2], [Cell.num 3, Cell.text "x"]]
      = [[Cell.num 1, Cell.num 2], [Cell.num 3, Cell.text "x"]] :=
  (C4_row_filter [[Cell.num 1, Cell.num 2], [Cell.num 3, Cell.text "x"]]).2.2 (by decide)

/-- The columns inferred by `dataFrameOfRecords` are exactly the union of
the record keys (generalized over the fold's accumulator). -/
theorem mem_dfColumns_aux (k : String) (recs : List (List (String × Cell))) :
    ∀ acc : List String,
      (k ∈ recs.foldl
        (fun acc r => acc ++ ((r.map Prod.fst).filter (fun k => !(acc.contains k)))) acc)
      ↔ k ∈ acc ∨ ∃ r ∈ recs, k ∈ r.map Prod.fst := by
  induction recs with
  | nil => intro acc; simp
  | cons r rs ih =>
      intro acc
      rw [List.foldl_cons, ih]
      simp only [List.mem_append, List.mem_filter, List.mem_cons, Bool.not_eq_true',
        List.contains, List.elem_eq_mem, decide_eq_false_iff_not]
      constructor
      · rintro (⟨ha | ⟨hm, _⟩⟩ | ⟨r₁, hr₁, hm₁⟩)
        · exact Or.inl ha
        · exact Or.inr ⟨r, Or.inl rfl, hm⟩
        · exact Or.inr ⟨r₁, Or.inr hr₁, hm₁⟩
      · rintro (ha | ⟨r₁, hr₁ | hr₁, hm₁⟩)
        · exact Or.inl (Or.inl ha)
        · by_cases hk : k ∈ acc
          · exact Or.inl (Or.inl hk)
          · exact Or.inl (Or.inr ⟨hr₁ ▸ hm₁, hk⟩)
        · exact Or.inr ⟨r₁, hr₁, hm₁⟩

/-- C7: `load_data` dispatches on the filename suffix: a `.csv` suffix
parses the delimited text into a table, otherwise a `.json` suffix parses
the record list into a table whose columns are exactly the union of the
record keys, and any other suffix leaves the analyzer's table as it was
(absent for a fresh analyzer). -/
theorem C7_loader (prev : Option Table) (src csvContent : String)
    (jsonContent : List (List (String × Cell))) :
    (endswith src ".csv" = true →
        load_data prev src csvContent jsonContent = some (read_csv csvContent))
    ∧ (endswith src ".csv" = false → endswith src ".json" = true →
        load_data prev src csvContent jsonContent = some (dataFrameOfRecords jsonContent)
        ∧ ∀ k, (k ∈ (dataFrameOfRecords jsonContent).colNames
                 ↔ ∃ r ∈ jsonContent, k ∈ r.map Prod.fst))
    ∧ (endswith src ".csv" = false → endswith src ".json" = false →
        load_data prev src csvContent jsonContent = prev) := by
  refine ⟨fun hc => by simp [load_data, hc], fun hc hj => ⟨by simp [load_data, hc, hj], ?_⟩,
    fun hc hj => by simp [load_data, hc, hj]⟩
  intro k
  have h := mem_dfColumns_aux k jsonContent []
  simpa [dataFrameOfRecords, dfColumns] using h

/-- Witness for C7 at a concrete source identifier of each kind. -/
theorem C7_witness :
    load_data none "data.csv" "a,b\n1,2" [] = some (read_csv "a,b\n1,2")
    ∧ load_data none "data.json" "" [[("k", Cell.num 1)]]
        = some (dataFrameOfRecords [[("k", Cell.num 1)]])
    ∧ load_data none "data.txt" "" [] = none :=
  ⟨(C7_loader none "data.csv" "a,b\n1,2" []).1 (by decide),
   ((C7_loader none "data.json" "" [[("k", Cell.num 1)]]).2.1 (by decide) (by decide)).1,
   (C7_loader none "data.txt" "" []).2.2 (by decide) (by decide)⟩

/-- C8: with no table, or with a table of fewer than two columns, the
guard fails before any split is attempted: `build_ml_model` returns
nothing, normally (no exception), and in particular the train/test split
it would perform is not produced either. -/
theorem C8_insufficient_columns :
    build_ml_model none = Except.ok none ∧ mlSplit none = Except.ok none
    ∧ ∀ t : Table, t.ncols < 2 →
        build_ml_model (some t) = Except.ok none ∧ mlSplit (some t) = Except.ok none := by
  refine ⟨rfl, rfl, ?_⟩
  intro t ht
  have h1 : ¬ 1 < t.ncols := by omega
  exact ⟨by simp [build_ml_model, h1], by simp [mlSplit, h1]⟩

/-- Witness for C8 at a concrete one-column table. -/
theorem C8_witness :
    build_ml_model (some ⟨["only"], []⟩) = Except.ok none
    ∧ mlSplit (some ⟨["only"], []⟩) = Except.ok none :=
  C8_insufficient_columns.2.2 ⟨["only"], []⟩ (by decide)

/-- C9: on a numeric column of at least two rows with zero sample
variance (a constant column), normalization divides by the zero standard
deviation and every entry of the column becomes the invalid marker —
nothing is clamped or skipped. -/
theorem C9_zero_variance (xs : List ℝ) (h2 : 2 ≤ xs.length) (hv : sampleVar xs = 0) :
    normalizeCol xs = xs.map (fun _ => none) := by
  have hlen : ¬ xs.length ≤ 1 := by omega
  have hstd : std xs = 0 := by rw [std, hv, Real.sqrt_zero]
  simp [normalizeCol, stdOrNan, hlen, nanDiv, hstd]

/-- Witness for C9 at the concrete constant column `[3, 3]`. -/
theorem C9_witness : normalizeCol [(3 : ℝ), 3] = [none, none] := by
  have h := C9_zero_variance [(3 : ℝ), 3] (by norm_num)
    (by norm_num [sampleVar, mean])
  simpa using h

/-- C10: on a numeric column with exactly one row, the sample standard
deviation (pandas default `ddof = 1`) is the invalid marker, and
normalization turns the single numeric value into the invalid marker. -/
theorem C10_single_row (xs : List ℝ) (h1 : xs.length = 1) :
    stdOrNan xs = none ∧ normalizeCol xs = xs.map (fun _ => none) := by
  have hle : xs.length ≤ 1 := by omega
  refine ⟨by simp [stdOrNan, hle], ?_⟩
  simp [normalizeCol, stdOrNan, hle, nanDiv]

/-- Witness for C10 at the concrete one-row column `[5]`. -/
theorem C10_witness : stdOrNan [(5 : ℝ)] = none ∧ normalizeCol [(5 : ℝ)] = [none] := by
  have h := C10_single_row [(5 : ℝ)] rfl
  simpa using h

/-- Pulling a constant divisor out of a list sum. -/
theorem sum_map_div (xs : List ℝ) (f : ℝ → ℝ) (c : ℝ) :
    (xs.map (fun x => f x / c)).sum = (xs.map f).sum / c := by
  induction xs with
  | nil => simp
  | cons a l ih => simp [ih, add_div]

/-- Summing the deviations from a constant. -/
theorem sum_map_sub (xs : List ℝ) (m : ℝ) :
    (xs.map (fun x => x - m)).sum = xs.sum - (xs.length : ℝ) * m := by
  induction xs with
  | nil => simp
  | cons a l ih =>
      simp only [List.map_cons, List.sum_cons, ih, List.length_cons]
      push_cast
      ring

/-- The deviations from the mean of a non-empty column sum to zero. -/
theorem sum_dev_mean (xs : List ℝ) (hne : xs.length ≠ 0) :
    (xs.map (fun x => x - mean xs)).sum = 0 := by
  have hn : (xs.length : ℝ) ≠ 0 := Nat.cast_ne_zero.mpr hne
  rw [sum_map_sub, mean]
  field_simp

/-- A column of at least two values with non-zero sample variance has
positive sample variance. -/
theorem sampleVar_pos (xs : List ℝ) (h2 : 2 ≤ xs.length) (hv : sampleVar xs ≠ 0) :
    0 < sampleVar xs := by
  have hlen : (2 : ℝ) ≤ (xs.length : ℝ) := by exact_mod_cast h2
  have hd : (0 : ℝ) < (xs.length : ℝ) - 1 := by linarith
  have hnum : (0 : ℝ) ≤ (xs.map (fun x => (x - mean xs) ^ 2)).sum :=
    List.sum_nonneg (by
      intro y hy
      obtain ⟨x, _, rfl⟩ := List.mem_map.mp hy
      positivity)
  have : (0 : ℝ) ≤ sampleVar xs := div_nonneg hnum hd.le
  exact lt_of_le_of_ne this (Ne.symm hv)

/-- C5: on a column of at least two values with non-zero variance,
normalization produces a real-valued (never invalid) column `ys` whose mean
is exactly 0 and whose sample standard deviation is exactly 1, and applying
the normalization again to `ys` leaves it unchanged — so the renormalized
column again has mean 0 and standard deviation 1 (idempotence; exact here,
up to floating-point tolerance in the machine). -/
theorem C5_normalization_idempotent (xs : List ℝ) (h2 : 2 ≤ xs.length)
    (hv : sampleVar xs ≠ 0) :
    ∃ ys : List ℝ, normalizeCol xs = ys.map some
      ∧ mean ys = 0 ∧ std ys = 1
      ∧ normalizeCol ys = ys.map some := by
  have hvpos : 0 < sampleVar xs := sampleVar_pos xs h2 hv
  have hspos : 0 < std xs := Real.sqrt_pos.mpr hvpos
  have hsne : std xs ≠ 0 := ne_of_gt hspos
  have hs2 : std xs ^ 2 = sampleVar xs := Real.sq_sqrt hvpos.le
  have hnne : xs.length ≠ 0 := by omega
  have hnlt : ¬ xs.length ≤ 1 := by omega
  refine ⟨xs.map (fun x => (x - mean xs) / std xs), ?_, ?_, ?_, ?_⟩
  · simp [normalizeCol, stdOrNan, hnlt, nanDiv, hsne, List.map_map, Function.comp_def]
  · have hsum : (xs.map (fun x => (x - mean xs) / std xs)).sum = 0 := by
      rw [sum_map_div xs (fun x => x - mean xs) (std xs), sum_dev_mean xs hnne, zero_div]
    rw [mean, hsum, zero_div]
  · have hmean0 : mean (xs.map (fun x => (x - mean xs) / std xs)) = 0 := by
      have hsum : (xs.map (fun x => (x - mean xs) / std xs)).sum = 0 := by
        rw [sum_map_div xs (fun x => x - mean xs) (std xs), sum_dev_mean xs hnne, zero_div]
      rw [mean, hsum, zero_div]
    have hvar1 : sampleVar (xs.map (fun x => (x - mean xs) / std xs)) = 1 := by
      rw [sampleVar, hmean0]
      have hmm : ((xs.map (fun x => (x - mean xs) / std xs)).map (fun x => (x - 0) ^ 2))
          = xs.map (fun x => ((x - mean xs) ^ 2) / (std xs ^ 2)) := by
        rw [List.map_map]
        refine List.map_congr_left ?_
        intro x _
        simp [Function.comp_def, div_pow]
      rw [hmm, sum_map_div xs (fun x => (x - mean xs) ^ 2) (std xs ^ 2), List.length_map]
      rw [div_right_comm, hs2]
      have : (xs.map (fun x => (x - mean xs) ^ 2)).sum / ((xs.length : ℝ) - 1)
          = sampleVar xs := rfl
      rw [this, div_self hv]
    rw [std, hvar1, Real.sqrt_one]
  · have hmean0 : mean (xs.map (fun x => (x - mean xs) / std xs)) = 0 := by
      have hsum : (xs.map (fun x => (x - mean xs) / std xs)).sum = 0 := by
        rw [sum_map_div xs (fun x => x - mean xs) (std xs), sum_dev_mean xs hnne, zero_div]
      rw [mean, hsum, zero_div]
    have hvar1 : sampleVar (xs.map (fun x => (x - mean xs) / std xs)) = 1 := by
      rw [sampleVar, hmean0]
      have hmm : ((xs.map (fun x => (x - mean xs) / std xs)).map (fun x => (x - 0) ^ 2))
          = xs.map (fun x => ((x - mean xs) ^ 2) / (std xs ^ 2)) := by
        rw [List.map_map]
        refine List.map_congr_left ?_
        intro x _
        simp [Function.comp_def, div_pow]
      rw [hmm, sum_map_div xs (fun x => (x - mean xs) ^ 2) (std xs ^ 2), List.length_map]
      rw [div_right_comm, hs2]
      have : (xs.map (fun x => (x - mean xs) ^ 2)).sum / ((xs.length : ℝ) - 1)
          = sampleVar xs := rfl
      rw [this, div_self hv]
    have hstd1 : std (xs.map (fun x => (x - mean xs) / std xs)) = 1 := by
      rw [std, hvar1, Real.sqrt_one]
    have hlen1 : ¬ (xs.map (fun x => (x - mean xs) / std xs)).length ≤ 1 := by
      rw [List.length_map]; omega
    simp [normalizeCol, stdOrNan, hlen1, hnlt, nanDiv, hmean0, hstd1]

/-- Witness for C5 at the concrete column `[0, 2]` (variance 2). -/
theorem C5_witness :
    ∃ ys : List ℝ, normalizeCol [(0 : ℝ), 2] = ys.map some
      ∧ mean ys = 0 ∧ std ys = 1
      ∧ normalizeCol ys = ys.map some :=
  C5_normalization_idempotent [(0 : ℝ), 2] (by norm_num)
    (by norm_num [sampleVar, mean])

/-- A column with at most one value has sample variance zero in this
model (pandas would report NaN; either way it is not positive). -/
theorem sampleVar_zero_of_short (xs : List ℝ) (h : xs.length ≤ 1) : sampleVar xs = 0 := by
  cases xs with
  | nil => simp [sampleVar]
  | cons a l =>
      cases l with
      | nil => simp [sampleVar, mean]
      | cons b m => simp at h

/-- A column with non-zero sample variance has positive sample variance. -/
theorem sampleVar_pos_of_ne (xs : List ℝ) (hv : sampleVar xs ≠ 0) : 0 < sampleVar xs := by
  rcases Nat.lt_or_ge xs.length 2 with hlt | hge
  · exact absurd (sampleVar_zero_of_short xs (by omega)) hv
  · exact sampleVar_pos xs hge hv

/-- A list sum as a sum over index positions. -/
theorem sum_map_getD (f : ℝ → ℝ) (xs : List ℝ) :
    (xs.map f).sum = ∑ i ∈ Finset.range xs.length, f (xs.getD i 0) := by
  induction xs with
  | nil => simp
  | cons a l ih =>
      rw [List.map_cons, List.sum_cons, List.length_cons, Finset.sum_range_succ']
      simp only [List.getD_cons_succ, List.getD_cons_zero]
      rw [← ih]
      ring

/-- A zipped list sum as a sum over index positions. -/
theorem sum_zipWith_getD (f : ℝ → ℝ → ℝ) (xs : List ℝ) :
    ∀ ys : List ℝ, xs.length = ys.length →
      (List.zipWith f xs ys).sum = ∑ i ∈ Finset.range xs.length, f (xs.getD i 0) (ys.getD i 0) := by
  induction xs with
  | nil => intro ys h; simp
  | cons a l ih =>
      intro ys h
      cases ys with
      | nil => simp at h
      | cons b m =>
          rw [List.zipWith_cons_cons, List.sum_cons, List.length_cons, Finset.sum_range_succ']
          simp only [List.getD_cons_succ, List.getD_cons_zero]
          rw [← ih m (by simpa using h)]
          ring

/-- Cauchy-Schwarz for two columns of equal length. -/
theorem list_cauchy_schwarz (f g : ℝ → ℝ) (xs ys : List ℝ) (h : xs.length = ys.length) :
    ((List.zipWith (fun a b => f a * g b) xs ys).sum) ^ 2
      ≤ (xs.map (fun a => f a ^ 2)).sum * (ys.map (fun b => g b ^ 2)).sum := by
  rw [sum_zipWith_getD (fun a b => f a * g b) xs ys h, sum_map_getD, sum_map_getD, h]
  exact Finset.sum_mul_sq_le_sq_mul_sq _ _ _

/-- The covariance of a column with itself is its sample variance. -/
theorem cov_self (x : List ℝ) : cov x x = sampleVar x := by
  rw [cov, sampleVar, List.zipWith_same]
  have hfun : (fun a => (a - mean x) * (a - mean x)) = fun a => (a - mean x) ^ 2 := by
    funext a
    ring
  rw [hfun]

/-- Pearson correlation is symmetric for columns of equal length. -/
theorem pearson_comm (x y : List ℝ) (h : x.length = y.length) : pearson x y = pearson y x := by
  have hcov : cov x y = cov y x := by
    rw [cov, cov, List.zipWith_comm, h]
    have hfun : (fun b a => (a - mean x) * (b - mean y))
        = fun a b => (a - mean y) * (b - mean x) := by
      funext u v
      ring
    rw [hfun]
  rw [pearson, pearson, hcov, mul_comm]

/-- The diagonal of the correlation matrix: a column with non-zero
variance has correlation exactly 1 with itself. -/
theorem pearson_self (x : List ℝ) (hv : sampleVar x ≠ 0) : pearson x x = 1 := by
  have hpos := sampleVar_pos_of_ne x hv
  rw [pearson, cov_self, std, Real.mul_self_sqrt hpos.le, div_self hv]

/-- The core estimate behind the correlation bound: the quotient shape of
`pearson`, in terms of the raw sums, has absolute value at most 1. -/
theorem abs_corr_quotient_le_one (S A B n1 : ℝ) (hA : 0 < A) (hB : 0 < B) (hn1 : 0 < n1)
    (hCS : S ^ 2 ≤ A * B) :
    |(S / n1) / (Real.sqrt (A / n1) * Real.sqrt (B / n1))| ≤ 1 := by
  have hAB : 0 < A * B := mul_pos hA hB
  have hsq : Real.sqrt (A / n1) * Real.sqrt (B / n1) = Real.sqrt (A * B) / n1 := by
    rw [← Real.sqrt_mul (div_nonneg hA.le hn1.le), div_mul_div_comm,
      Real.sqrt_div hAB.le, Real.sqrt_mul_self hn1.le]
  have h1 : (S / n1) / (Real.sqrt (A * B) / n1) = S / Real.sqrt (A * B) := by
    have hn1ne : n1 ≠ 0 := ne_of_gt hn1
    field_simp
  rw [hsq, h1, abs_div, abs_of_nonneg (Real.sqrt_nonneg _)]
  refine (div_le_one (Real.sqrt_pos.mpr hAB)).mpr ?_
  calc |S| = Real.sqrt (S ^ 2) := (Real.sqrt_sq_eq_abs S).symm
    _ ≤ Real.sqrt (A * B) := Real.sqrt_le_sqrt hCS

/-- Every Pearson coefficient of two equal-length columns with non-zero
variance lies in the interval from -1 to 1. -/
theorem pearson_abs_le (x y : List ℝ) (h : x.length = y.length)
    (hvx : sampleVar x ≠ 0) (hvy : sampleVar y ≠ 0) : |pearson x y| ≤ 1 := by
  have hvxpos := sampleVar_pos_of_ne x hvx
  have hvypos := sampleVar_pos_of_ne y hvy
  have hxlen : 2 ≤ x.length := by
    by_contra hc
    push_neg at hc
    exact hvx (sampleVar_zero_of_short x (by omega))
  have hn1pos : (0 : ℝ) < (x.length : ℝ) - 1 := by
    have h2 : (2 : ℝ) ≤ (x.length : ℝ) := by exact_mod_cast hxlen
    linarith
  have hn1ne : ((x.length : ℝ) - 1) ≠ 0 := ne_of_gt hn1pos
  have hA : 0 < (x.map (fun a => (a - mean x) ^ 2)).sum := by
    have heq : (x.map (fun a => (a - mean x) ^ 2)).sum
        = sampleVar x * ((x.length : ℝ) - 1) := by
      rw [sampleVar]
      field_simp
    rw [heq]
    exact mul_pos hvxpos hn1pos
  have hn1ney : ((y.length : ℝ) - 1) ≠ 0 := by
    rw [← h]
    exact hn1ne
  have hB : 0 < (y.map (fun b => (b - mean y) ^ 2)).sum := by
    have heq : (y.map (fun b => (b - mean y) ^ 2)).sum
        = sampleVar y * ((y.length : ℝ) - 1) := by
      rw [sampleVar]
      field_simp
    rw [heq, ← h]
    exact mul_pos hvypos hn1pos
  have hCS : ((List.zipWith (fun a b => (a - mean x) * (b - mean y)) x y).sum) ^ 2
      ≤ (x.map (fun a => (a - mean x) ^ 2)).sum * (y.map (fun b => (b - mean y) ^ 2)).sum :=
    list_cauchy_schwarz (fun a => a - mean x) (fun b => b - mean y) x y h
  have hgoal := abs_corr_quotient_le_one
    ((List.zipWith (fun a b => (a - mean x) * (b - mean y)) x y).sum)
    ((x.map (fun a => (a - mean x) ^ 2)).sum)
    ((y.map (fun b => (b - mean y) ^ 2)).sum)
    ((x.length : ℝ) - 1) hA hB hn1pos hCS
  rw [pearson, cov, std, std, sampleVar, sampleVar, ← h]
  exact hgoal

/-- C6: for columns of one common length, each with non-zero sample
variance, the correlation matrix of `generate_visualizations` is square
(one row per column, each of the full width), symmetric, has every
diagonal entry exactly 1, and every entry lies in the interval
from -1 to 1. -/
theorem C6_correlation (cols : List (List ℝ))
    (hlen : ∀ x ∈ cols, ∀ y ∈ cols, x.length = y.length)
    (hvar : ∀ x ∈ cols, sampleVar x ≠ 0) :
    (corrMatrix cols).length = cols.length
    ∧ (∀ row ∈ corrMatrix cols, row.length = cols.length)
    ∧ (∀ x ∈ cols, ∀ y ∈ cols, pearson x y = pearson y x)
    ∧ (∀ x ∈ cols, pearson x x = 1)
    ∧ (∀ x ∈ cols, ∀ y ∈ cols, |pearson x y| ≤ 1) := by
  refine ⟨by simp [corrMatrix], ?_, ?_, ?_, ?_⟩
  · intro row hrow
    rw [corrMatrix] at hrow
    obtain ⟨x, _, rfl⟩ := List.mem_map.mp hrow
    simp
  · intro x hx y hy
    exact pearson_comm x y (hlen x hx y hy)
  · intro x hx
    exact pearson_self x (hvar x hx)
  · intro x hx y hy
    exact pearson_abs_le x y (hlen x hx y hy) (hvar x hx) (hvar y hy)

/-- Inserting an element at a position within the list is a permutation of
pushing it on the front. -/
theorem insertIdx_perm_cons {α : Type} (x : α) :
    ∀ (n : Nat) (l : List α), n ≤ l.length → (List.insertIdx n x l).Perm (x :: l)
  | 0, l, _ => by rw [List.insertIdx_zero]
  | n + 1, [], h => by simp at h
  | n + 1, a :: t, h => by
      rw [List.insertIdx_succ_cons]
      have ih := insertIdx_perm_cons x n t (by simpa using h)
      exact (ih.cons a).trans (List.Perm.swap x a t)

/-- The inside-out shuffle permutes its input list. -/
theorem shuffleAux_perm : ∀ (l : List Nat) (s : Nat), (shuffleAux l s).Perm l
  | [], _ => List.Perm.refl []
  | x :: xs, s => by
      have ih := shuffleAux_perm xs (lcg s)
      have hle : s % (xs.length + 1) ≤ (shuffleAux xs (lcg s)).length := by
        rw [ih.length_eq]
        exact Nat.le_of_lt_succ (Nat.mod_lt _ (Nat.succ_pos _))
      exact (insertIdx_perm_cons x _ _ hle).trans (ih.cons x)

/-- The seeded shuffle of row indices is a permutation of `0, ..., n-1`. -/
theorem permutation_perm (seed n : Nat) : (permutation seed n).Perm (List.range n) :=
  shuffleAux_perm (List.range n) (lcg seed)

/-- The seeded permutation has one entry per row. -/
theorem permutation_length (seed n : Nat) : (permutation seed n).length = n := by
  rw [(permutation_perm seed n).length_eq, List.length_range]

/-- The seeded permutation repeats no row index. -/
theorem permutation_nodup (seed n : Nat) : (permutation seed n).Nodup :=
  (permutation_perm seed n).nodup_iff.mpr (List.nodup_range n)

/-- Selecting rows by a list of in-range indices yields one row per index. -/
theorem selectRows_length {α : Type} (rows : List α) :
    ∀ idx : List Nat, (∀ i ∈ idx, i < rows.length) →
      (selectRows rows idx).length = idx.length := by
  intro idx
  induction idx with
  | nil => intro _; rfl
  | cons i t ih =>
      intro h
      have hi : i < rows.length := h i (List.mem_cons_self i t)
      have ht : ∀ j ∈ t, j < rows.length := fun j hj => h j (List.mem_cons_of_mem _ hj)
      have hget : rows.get? i = some (rows.get ⟨i, hi⟩) := List.get?_eq_get hi
      simp only [selectRows, List.filterMap_cons, hget] at ih ⊢
      rw [List.length_cons, ih ht, List.length_cons]

/-- The evaluation-subset size for a 100-row table is exactly 20. -/
theorem testCount_100 : testCount 100 = 20 := by
  rw [testCount]
  norm_num

/-- C1: the claim as stated is false: on a one-row table the split does
not partition the rows at all — sklearn's `train_test_split` raises
`ValueError` because the training set would be empty
(`n_train = 1 - ceil(0.2) = 0`), so no partition is produced. -/
theorem C1_counterexample :
    train_test_split [(0 : ℚ)] 42
      = Except.error "ValueError: the resulting train set will be empty" :=
  train_test_split_err [(0 : ℚ)] 42 (by decide)

/-- C1 (amended): for every table with at least two rows and every seed,
the split succeeds and partitions the rows: the training and evaluation
subsets together have as many rows as the table, their index sets are
disjoint, and together the two index lists are a permutation of all row
indices; on a table with fewer than two rows the split raises `ValueError`
and no partition is produced; the split is a pure function of the table
and the seed (re-running it is literally the same value, so the partition
is identical); and on a 100-row table the evaluation subset has exactly
20 rows. -/
theorem C1_splitter_amended {α : Type} (rows : List α) (seed : Nat) :
    (2 ≤ rows.length →
      ∃ tr te, train_test_split rows seed = Except.ok (tr, te)
        ∧ tr.length + te.length = rows.length
        ∧ List.Disjoint (testIndices seed rows.length) (trainIndices seed rows.length)
        ∧ (testIndices seed rows.length ++ trainIndices seed rows.length).Perm
            (List.range rows.length))
    ∧ (rows.length ≤ 1 →
        train_test_split rows seed
          = Except.error "ValueError: the resulting train set will be empty")
    ∧ train_test_split rows seed = train_test_split rows seed
    ∧ (testIndices 42 100).length = 20 := by
  have hperm := permutation_perm seed rows.length
  have hlen := permutation_length seed rows.length
  have hmem : ∀ i ∈ permutation seed rows.length, i < rows.length := by
    intro i hi
    exact List.mem_range.mp (hperm.mem_iff.mp hi)
  have hte : ∀ i ∈ testIndices seed rows.length, i < rows.length := by
    intro i hi
    exact hmem i (List.take_subset _ _ hi)
  have htr : ∀ i ∈ trainIndices seed rows.length, i < rows.length := by
    intro i hi
    exact hmem i (List.drop_subset _ _ hi)
  refine ⟨?_, fun h1 => train_test_split_err rows seed h1, rfl, ?_⟩
  · intro h2
    refine ⟨selectRows rows (trainIndices seed rows.length),
      selectRows rows (testIndices seed rows.length),
      train_test_split_ok rows seed h2, ?_, ?_, ?_⟩
    · rw [selectRows_length rows _ htr, selectRows_length rows _ hte,
        trainIndices, testIndices, List.length_drop, List.length_take, hlen]
      omega
    · exact List.disjoint_take_drop (permutation_nodup seed rows.length) (le_refl _)
    · rw [testIndices, trainIndices, List.take_append_drop]
      exact hperm
  · rw [testIndices, List.length_take, permutation_length, testCount_100]
    omega

/-- Witness for C1: the amended theorem at a concrete two-row table (the
successful branch) and at a concrete one-row table (the error branch). -/
theorem C1_witness :
    (∃ tr te, train_test_split [(0 : ℚ), 1] 42 = Except.ok (tr, te)
      ∧ tr.length + te.length = 2
      ∧ List.Disjoint (testIndices 42 2) (trainIndices 42 2)
      ∧ (testIndices 42 2 ++ trainIndices 42 2).Perm (List.range 2))
    ∧ train_test_split [(1 : ℚ)] 7
        = Except.error "ValueError: the resulting train set will be empty" :=
  ⟨by simpa using (C1_splitter_amended [(0 : ℚ), 1] 42).1 (by decide),
   (C1_splitter_amended [(1 : ℚ)] 7).2.1 (by decide)⟩

/-- Witness for C6 at the concrete two-column table `[[0,1],[1,0]]`. -/
theorem C6_witness :
    (corrMatrix [[(0 : ℝ), 1], [1, 0]]).length = 2
    ∧ (∀ row ∈ corrMatrix [[(0 : ℝ), 1], [1, 0]], row.length = 2)
    ∧ (∀ x ∈ [[(0 : ℝ), 1], [1, 0]], ∀ y ∈ [[(0 : ℝ), 1], [1, 0]],
        pearson x y = pearson y x)
    ∧ (∀ x ∈ [[(0 : ℝ), 1], [1, 0]], pearson x x = 1)
    ∧ (∀ x ∈ [[(0 : ℝ), 1], [1, 0]], ∀ y ∈ [[(0 : ℝ), 1], [1, 0]],
        |pearson x y| ≤ 1) := by
  have h := C6_correlation [[(0 : ℝ), 1], [1, 0]]
    (by
      intro x hx y hy
      fin_cases hx <;> fin_cases hy <;> rfl)
    (by
      intro x hx
      fin_cases hx <;> norm_num [sampleVar, mean])
  simpa using h

end DataAnalyzer
